import Mathlib

/-!
Verification of the pagination / comment-threading / error-mapping core of a
Bitbucket pull-request CLI (sources: `src/api/client.ts`, `src/commands/pr.ts`,
`src/api/types.ts`).  TypeScript values are shallowly embedded: JS numbers that
hold integer ids become `Int`, optional fields become `Option`, thrown typed
errors become an explicit `ApiError` sum carried in `Except`, and the external
collaborators (the HTTP `fetch`, URL parsing, `formatTimestamp` from
`output.ts`, git/credential lookups) are parameters of the embedded functions.
`process.exit` / `outputError` terminations are reified as a `CmdExit` value.
-/

namespace BB

/-- Equality of `Except` values is decidable when it is on both sides;
needed to evaluate embedded fallible functions inside `decide`. -/
instance {ε α : Type} [DecidableEq ε] [DecidableEq α] : DecidableEq (Except ε α)
  | .ok a, .ok b =>
    if h : a = b then .isTrue (by rw [h])
    else .isFalse (by intro hh; cases hh; exact h rfl)
  | .error a, .error b =>
    if h : a = b then .isTrue (by rw [h])
    else .isFalse (by intro hh; cases hh; exact h rfl)
  | .ok _, .error _ => .isFalse (by intro h; cases h)
  | .error _, .ok _ => .isFalse (by intro h; cases h)

/-- The typed error taxonomy of `src/api/client.ts`: `AuthError` (401),
`ForbiddenError` (403), `NotFoundError` (404), and the generic `Error`
(`API error <status>: <message>`, and the SSRF-guard rejection). -/
inductive ApiError where
  | authError (msg : String)
  | forbiddenError (msg : String)
  | notFoundError (msg : String)
  | genericError (msg : String)
  deriving DecidableEq, Repr

/-- An HTTP response as seen by the client, `body` being the JSON payload of a
successful call.  `errorEnvelope` models the body that `handleErrorResponse`
reads on failures: `none` means the body is not an object carrying an `error`
property (or JSON parsing threw); `some none` means an `error` object is
present but its `message` is null/undefined; `some (some m)` means the
conventional envelope carries message `m`. -/
structure HttpResponse (T : Type) where
  status : Nat
  statusText : String
  errorEnvelope : Option (Option String)
  body : T
  deriving Repr

/-- `response.ok` of the fetch API: status in the range 200..299. -/
def responseOk {T : Type} (r : HttpResponse T) : Bool :=
  200 ≤ r.status && r.status < 300

/-- The message extraction of `handleErrorResponse` (client.ts lines 239-251):
`errorBody.error.message ?? response.statusText`, falling back to the status
text when the body has no usable envelope. -/
def extractErrMessage {T : Type} (r : HttpResponse T) : String :=
  match r.errorEnvelope with
  | some (some m) => m
  | some none => r.statusText
  | none => r.statusText

/-- `ApiClient.handleErrorResponse` (client.ts lines 238-263): map a non-2xx
response to the typed error taxonomy. -/
def handleErrorResponse {T : Type} (r : HttpResponse T) : ApiError :=
  match r.status with
  | 401 => .authError (extractErrMessage r)
  | 403 => .forbiddenError (extractErrMessage r)
  | 404 => .notFoundError (extractErrMessage r)
  | _ => .genericError ("API error " ++ toString r.status ++ ": " ++ extractErrMessage r)

/-- The fixed API origin prefix of `client.ts`. -/
def baseUrl : String := "https://api.bitbucket.org/2.0"

/-- `ApiClient.get` (client.ts lines 61-78): fetch `BASE_URL + endpoint` and
either return the parsed body or fail via `handleErrorResponse`.  The HTTP
layer itself is the parameter `doFetch`. -/
def clientGet {T : Type} (doFetch : String → HttpResponse T) (endpoint : String) :
    Except ApiError T :=
  let r := doFetch (baseUrl ++ endpoint)
  if responseOk r then .ok r.body else .error (handleErrorResponse r)

/-- `ApiClient.getFullUrl` (client.ts lines 89-110): the pagination entry point
taking a full, server-supplied URL.  `hostnameOf` embeds `new URL(url).hostname`
(an external parser).  The second component is the list of URLs actually handed
to `fetch`: the SSRF guard rejects a foreign hostname with a generic `Error`
before any request is made, so that list stays empty. -/
def getFullUrl {T : Type} (hostnameOf : String → String)
    (doFetch : String → HttpResponse T) (url : String) :
    Except ApiError T × List String :=
  if hostnameOf url ≠ "api.bitbucket.org" then
    (.error (.genericError
      ("Invalid URL: requests must be to api.bitbucket.org, got " ++ hostnameOf url)), [])
  else
    let r := doFetch url
    if responseOk r then (.ok r.body, [url]) else (.error (handleErrorResponse r), [url])

/-- The optional inline location of a comment (`InlineComment` in
`src/api/types.ts`): a file path plus nullable from/to line numbers. -/
structure InlineInfo where
  path : String
  fromLine : Option Int
  toLine : Option Int
  deriving DecidableEq, Repr

/-- A pull-request comment as delivered by the API (`Comment` in
`src/api/types.ts`), restricted to the fields the embedded code reads.
`content` is `content.raw`, `author` is `user.display_name`, `parent` is
`parent?.id`, `resolution` is the `resolution.type` string when the optional
resolution marker is present, `deleted` is the optional boolean flag
(absent ⇒ `false`). -/
structure Comment where
  id : Int
  content : String
  author : String
  created_on : String
  inline : Option InlineInfo := none
  parent : Option Int := none
  resolution : Option String := none
  deleted : Bool := false
  deriving DecidableEq, Repr

/-- A pull-request task (`Task` in `src/api/types.ts`), restricted to the
fields the embedded code reads; `comment` is the optional `comment.id`
cross-reference and `content` is `content.raw`, `creator` the creator's
`display_name`. -/
structure Task where
  id : Int
  state : String
  content : String
  creator : String
  comment : Option Int := none
  deriving DecidableEq, Repr

/-- The task record embedded in a formatted comment (`FormattedTask` in
`src/commands/pr.ts`). -/
structure FormattedTask where
  id : Int
  state : String
  content : String
  creator : String
  deriving DecidableEq, Repr

/-- A comment record of the structured output (`FormattedComment` in
`src/commands/pr.ts`). -/
structure FormattedComment where
  id : Int
  parent : Option Int
  author : String
  content : String
  created : String
  resolved : Bool
  file : Option String
  line : Option Int
  tasks : List FormattedTask
  deriving DecidableEq, Repr

/-- `formatComment` (pr.ts lines 1030-1042): flatten an API comment, with
`resolved := resolution !== undefined`, `file := inline?.path ?? null` and
`line := inline?.to ?? inline?.from ?? null`. -/
def formatComment (c : Comment) (tasks : List FormattedTask) : FormattedComment :=
  { id := c.id
    parent := c.parent
    author := c.author
    content := c.content
    created := c.created_on
    resolved := c.resolution.isSome
    file := c.inline.map (fun i => i.path)
    line := match c.inline with
      | some i => match i.toLine with
        | some v => some v
        | none => i.fromLine
      | none => none
    tasks := tasks }

/-- `JSON.parse`d paginated envelope (`PaginatedResponse` in types.ts): the
item list of one page plus the optional server-declared next-page URL. -/
structure Page (T : Type) where
  values : List T
  next : Option String := none
  deriving Repr

/-- JS `parseInt(s, 10)`: skip leading whitespace, read an optional sign and
then the longest prefix of decimal digits, ignoring any trailing characters;
`none` models `NaN` (no digits at all). -/
def parseIntJs (s : String) : Option Int :=
  let cs := s.toList.dropWhile (fun c => c.isWhitespace)
  let signed : Int × List Char :=
    match cs with
    | '-' :: rest => (-1, rest)
    | '+' :: rest => (1, rest)
    | _ => (1, cs)
  let ds := signed.2.takeWhile (fun c => c.isDigit)
  if ds.isEmpty then none
  else some (signed.1 * (Int.ofNat (ds.foldl (fun a c => a * 10 + (c.toNat - '0'.toNat)) 0)))

/-- The message of the `parsePrId` rejection. -/
def invalidPrIdMsg (s : String) : String :=
  "Invalid PR ID: \"" ++ s ++ "\". Must be a positive integer."

/-- `parsePrId` (pr.ts lines 766-772): `parseInt(arg, 10)`, rejecting `NaN`
and non-positive values through `outputError(…, 4)` — modelled as an
`Except` carrying the error message and the exit code 4. -/
def parsePrId (s : String) : Except (String × Nat) Int :=
  match parseIntJs s with
  | none => .error (invalidPrIdMsg s, 4)
  | some n => if n ≤ 0 then .error (invalidPrIdMsg s, 4) else .ok n

/-- A (workspace, repository) pair (`RepoInfo` in `src/git.ts`). -/
structure RepoInfo where
  workspace : String
  repo : String
  deriving DecidableEq, Repr

/-- JS `String.prototype.split` with a one-character separator, on the
character list: `"a//b"` splits to `["a", "", "b"]`, the empty string to
`[""]`. -/
def splitChars (sep : Char) : List Char → List (List Char)
  | [] => [[]]
  | c :: rest =>
    let r := splitChars sep rest
    if c == sep then [] :: r
    else
      match r with
      | h :: t => (c :: h) :: t
      | [] => [[c]]

/-- JS `s.split(sep)` for a one-character separator. -/
def splitJs (s : String) (sep : Char) : List String :=
  (splitChars sep s.data).map String.mk

/-- `parseRepoFlag` (pr.ts lines 703-714): split on `/`, requiring exactly two
truthy (non-empty) parts. -/
def parseRepoFlag (s : String) : Option RepoInfo :=
  match splitJs s '/' with
  | [w, r] => if w ≠ "" && r ≠ "" then some ⟨w, r⟩ else none
  | _ => none

/-- `getRepo` (pr.ts lines 720-744): prefer a truthy `--repo` flag, then the
git-remote lookup (an external collaborator, passed in as `gitRepo`), else
exit 4. -/
def getRepo (repoOpt : Option String) (gitRepo : Option RepoInfo) :
    Except (String × Nat) RepoInfo :=
  match repoOpt with
  | some s =>
    if s ≠ "" then
      match parseRepoFlag s with
      | some r => .ok r
      | none => .error
          ("Invalid --repo format: \"" ++ s ++ "\". Expected format: workspace/repo", 4)
    else
      match gitRepo with
      | some r => .ok r
      | none => .error (noRepoMsg, 4)
  | none =>
    match gitRepo with
    | some r => .ok r
    | none => .error (noRepoMsg, 4)
where
  noRepoMsg : String :=
    "Could not determine repository. Use --repo workspace/repo or run from a directory with a Bitbucket git remote."

/-- The `requireAuth` failure message (pr.ts lines 749-761). -/
def authRequiredMsg : String :=
  "Authentication required. Run 'bitbucket-agent-cli auth login' or set BB_USERNAME and BB_APP_PASSWORD environment variables."

/-- How an embedded command invocation terminates: `success` is
`output(text, structured); process.exit(0)`, `failure` is
`outputError(msg, code)`, `rethrown` is an error propagated past
`handleApiError` (the process then dies with the default handler), and `hung`
is the modelling artifact for a pagination that never terminates (the fuel of
the embedding ran out; the JS loop would simply not return). -/
inductive CmdExit (α : Type) where
  | success (text : String) (structured : α)
  | failure (msg : String) (code : Nat)
  | rethrown (e : ApiError)
  | hung
  deriving DecidableEq, Repr

/-- `ErrorContext` (pr.ts lines 777-781). -/
structure ErrorContext where
  prId : Option Int := none
  commentId : Option Int := none
  taskId : Option Int := none
  deriving DecidableEq, Repr

/-- JS truthiness of an optional number: defined and non-zero. -/
def truthyOptInt : Option Int → Bool
  | none => false
  | some n => n != 0

/-- JS string interpolation of an optional number: `undefined` prints as the
literal text `undefined`. -/
def optIntText : Option Int → String
  | none => "undefined"
  | some n => toString n

/-- `handleApiError` (pr.ts lines 786-813): translate a caught `ApiError` into
an `outputError` exit (codes 2/2/3) or rethrow it.  The `NotFound` message is
chosen by JS-truthiness of the context ids, most specific first. -/
def handleApiError {α : Type} (e : ApiError) (repo : RepoInfo) (ctx : ErrorContext) :
    CmdExit α :=
  match e with
  | .authError _ => .failure "Authentication failed. Check your credentials." 2
  | .forbiddenError _ => .failure
      ("Insufficient permissions to access " ++ repo.workspace ++ "/" ++ repo.repo ++
        ". Check your app password permissions.") 2
  | .notFoundError _ =>
    let resource : String :=
      if truthyOptInt ctx.taskId then
        "Task not found: #" ++ optIntText ctx.taskId ++ " on PR #" ++ optIntText ctx.prId
      else if truthyOptInt ctx.commentId then
        "Comment not found: #" ++ optIntText ctx.commentId ++ " on PR #" ++ optIntText ctx.prId
      else if truthyOptInt ctx.prId then
        "Pull request not found: " ++ repo.workspace ++ "/" ++ repo.repo ++ "#" ++
          optIntText ctx.prId
      else
        "Repository not found: " ++ repo.workspace ++ "/" ++ repo.repo
    .failure resource 3
  | .genericError _ => .rethrown e

/-- Insertion-ordered multimap, modelling the JS `Map<K, V[]>` pattern
`if (!m.has(k)) m.set(k, []); m.get(k)!.push(v)`: append to the entry of `k`
when one exists, otherwise add a new entry at the end. -/
def alAppend {κ α : Type} [BEq κ] (m : List (κ × List α)) (k : κ) (a : α) :
    List (κ × List α) :=
  match m with
  | [] => [(k, [a])]
  | (k1, l) :: rest =>
    if k1 == k then (k1, l ++ [a]) :: rest else (k1, l) :: alAppend rest k a

/-- `Map.get`. -/
def alGet {κ α : Type} [BEq κ] (m : List (κ × List α)) (k : κ) : Option (List α) :=
  match m with
  | [] => none
  | (k1, l) :: rest => if k1 == k then some l else alGet rest k

/-- `Map.get(k) ?? []`. -/
def alGetD {κ α : Type} [BEq κ] (m : List (κ × List α)) (k : κ) : List α :=
  (alGet m k).getD []

/-- `fetchAllPages` (pr.ts lines 1047-1066): follow the `next` cursor of each
page, concatenating the `values` lists, until a page carries no `next` URL.
The transport underneath (`client.get` / `client.getFullUrl` selected on the
`http` prefix) is abstracted as the page-fetch oracle `fetch`, which may throw
an `ApiError`.  The JS loop has no termination guarantee, so the embedding
carries fuel; `none` models a cursor sequence that outlives the fuel (the JS
loop would simply still be running). -/
def fetchAllPages {T : Type} (fetch : String → Except ApiError (Page T))
    (url : String) : Nat → Option (Except ApiError (List T))
  | 0 => none
  | fuel + 1 =>
    match fetch url with
    | .error e => some (.error e)
    | .ok page =>
      match page.next with
      | none => some (.ok page.values)
      | some nextUrl =>
        match fetchAllPages fetch nextUrl fuel with
        | none => none
        | some (.error e) => some (.error e)
        | some (.ok rest) => some (.ok (page.values ++ rest))

/-- `{id: task.id, state: task.state, content: task.content.raw, creator:
task.creator.display_name}` (pr.ts lines 1167-1172). -/
def formatTask (t : Task) : FormattedTask :=
  { id := t.id, state := t.state, content := t.content, creator := t.creator }

/-- The `tasksByCommentId` map build (pr.ts lines 1160-1174): group the
formatted tasks by `task.comment?.id`, skipping tasks whose reference is
missing — or `0`, by JS truthiness of `if (task.comment?.id)`. -/
def buildTasksByCommentId (tasks : List Task) : List (Int × List FormattedTask) :=
  tasks.foldl (fun m t =>
    match t.comment with
    | some cid => if cid != 0 then alAppend m cid (formatTask t) else m
    | none => m) []

/-- The structured result of the comments command (`CommentsOutput` in
pr.ts). -/
structure CommentsOutput where
  total : Nat
  resolved : Nat
  unresolved : Nat
  comments : List FormattedComment
  deriving DecidableEq, Repr

/-- The aggregation step of the `comments` orchestrator (pr.ts lines
1160-1193): group tasks by comment id, drop deleted comments, count
resolved/unresolved among the remaining ones, and flatten each active comment
with its attached tasks. -/
def commentsOutputOf (allComments : List Comment) (allTasks : List Task) :
    CommentsOutput :=
  let tasksByCommentId := buildTasksByCommentId allTasks
  let activeComments := allComments.filter (fun c => !c.deleted)
  let resolved := (activeComments.filter (fun c => c.resolution.isSome)).length
  let unresolved := activeComments.length - resolved
  { total := activeComments.length
    resolved := resolved
    unresolved := unresolved
    comments := activeComments.map (fun c =>
      formatComment c (alGetD tasksByCommentId c.id)) }

/-- The `childrenMap` build of `formatCommentsText` (pr.ts lines 1101-1108):
group the output comments by parent id (`null` keys to the root group),
preserving the original order inside every group. -/
def buildChildrenMap (comments : List FormattedComment) :
    List (Option Int × List FormattedComment) :=
  comments.foldl (fun m c => alAppend m c.parent c) []

/-- JS string interpolation of `comment.line` (a nullable number): `null`
prints as the literal text `null`. -/
def lineText : Option Int → String
  | none => "null"
  | some n => toString n

/-- The lines pushed for one comment inside `formatCommentTree` (pr.ts lines
1114-1128) before recursing: header (id, author, timestamp, `[RESOLVED]` tag,
truthy `file` location tag), indented body, one checkbox line per attached
task, and a blank separator line.  `fmtTs` is `formatTimestamp` from
`output.ts`, an external collaborator. -/
def blockLines (fmtTs : String → String) (indent : String) (c : FormattedComment) :
    List String :=
  let resolvedTag := if c.resolved then " [RESOLVED]" else ""
  let locationTag :=
    match c.file with
    | some f => if f ≠ "" then " " ++ f ++ ":" ++ lineText c.line else ""
    | none => ""
  [indent ++ "[#" ++ toString c.id ++ "] " ++ c.author ++ " (" ++ fmtTs c.created ++ ")" ++
      resolvedTag ++ locationTag,
    indent ++ "  " ++ c.content] ++
  c.tasks.map (fun t =>
    indent ++ "  " ++ (if t.state == "RESOLVED" then "[x]" else "[ ]") ++
      " Task #" ++ toString t.id ++ ": " ++ t.content) ++
  [""]

/-- The recursive `formatCommentTree` closure (pr.ts lines 1111-1133): emit
every child of `parentId` (in grouped order) as its block followed by its
subtree at a two-space deeper indent.  The JS recursion is unbounded (it would
diverge on a cyclic parent graph), so the embedding carries fuel; callers pass
one more than the number of comments, which bounds the depth of any acyclic
parent forest. -/
def formatCommentTree (fmtTs : String → String)
    (cm : List (Option Int × List FormattedComment)) (parentId : Option Int)
    (indent : String) : Nat → List String
  | 0 => []
  | fuel + 1 =>
    (alGetD cm parentId).flatMap (fun c =>
      blockLines fmtTs indent c ++
        formatCommentTree fmtTs cm (some c.id) (indent ++ "  ") fuel)

/-- The same traversal as `formatCommentTree`, instrumented to return the
emitted comments themselves, each with the indent it is emitted at, instead
of the printed lines. -/
def emittedComments (cm : List (Option Int × List FormattedComment))
    (parentId : Option Int) (indent : String) :
    Nat → List (String × FormattedComment)
  | 0 => []
  | fuel + 1 =>
    (alGetD cm parentId).flatMap (fun c =>
      (indent, c) :: emittedComments cm (some c.id) (indent ++ "  ") fuel)

/-- JS `String.prototype.trimEnd`: drop trailing whitespace. -/
def trimEndJs (s : String) : String :=
  String.mk ((s.data.reverse.dropWhile (fun c => c.isWhitespace)).reverse)

/-- `formatCommentsText` (pr.ts lines 1081-1138): the summary header (with the
task tally when any comment carries tasks), a blank line, the depth-first
thread rendering, joined by newlines and right-trimmed; or the short
no-comments message. -/
def formatCommentsText (fmtTs : String → String) (prId : Int) (data : CommentsOutput) :
    String :=
  if data.total == 0 then
    "No comments on PR #" ++ toString prId
  else
    let totalTasks := data.comments.foldl (fun sum c => sum + c.tasks.length) 0
    let resolvedTasks := data.comments.foldl (fun sum c =>
      sum + (c.tasks.filter (fun t => t.state == "RESOLVED")).length) 0
    let header :=
      "Comments on PR #" ++ toString prId ++ " (" ++ toString data.total ++ " total, " ++
        toString data.resolved ++ " resolved, " ++ toString data.unresolved ++ " unresolved)" ++
      (if totalTasks > 0 then
        "\nTasks: " ++ toString resolvedTasks ++ "/" ++ toString totalTasks ++ " resolved"
      else "")
    let lines := [header, ""] ++
      formatCommentTree fmtTs (buildChildrenMap data.comments) none ""
        (data.comments.length + 1)
    trimEndJs (String.intercalate "\n" lines)

/-- The external world of the `comments` orchestrator: the credential and
repository resolvers and the two page-fetch endpoints of the Transport (the
paginated GETs for comments and for tasks), plus `formatTimestamp` and the
pagination fuel of the embedding. -/
structure CommentsEnv where
  auth : Option (String × String)
  repoOpt : Option String
  gitRepo : Option RepoInfo
  fetchComments : String → Except ApiError (Page Comment)
  fetchTasks : String → Except ApiError (Page Task)
  fmtTs : String → String
  fuel : Nat

/-- The paginated comments endpoint of a PR (pr.ts line 1149). -/
def commentsEndpointFor (repo : RepoInfo) (prId : Int) : String :=
  "/repositories/" ++ repo.workspace ++ "/" ++ repo.repo ++ "/pullrequests/" ++
    toString prId ++ "/comments"

/-- The paginated tasks endpoint of a PR (pr.ts line 1150). -/
def tasksEndpointFor (repo : RepoInfo) (prId : Int) : String :=
  "/repositories/" ++ repo.workspace ++ "/" ++ repo.repo ++ "/pullrequests/" ++
    toString prId ++ "/tasks"

/-- The `comments` orchestrator (pr.ts lines 1143-1200): validate the PR id,
require credentials, resolve the repository, fetch all comment pages and all
task pages (`Promise.all`; an error from either fetch rejects the join — when
both fail, the model reports the comments error), aggregate and render, or
translate a caught `ApiError` through `handleApiError`.  The second component
lists the paginated endpoints handed to the Transport; validation failures
exit before it gains any entry. -/
def commentsCmd (env : CommentsEnv) (prIdArg : String) :
    CmdExit CommentsOutput × List String :=
  match parsePrId prIdArg with
  | .error (m, c) => (.failure m c, [])
  | .ok prId =>
    match env.auth with
    | none => (.failure authRequiredMsg 2, [])
    | some _ =>
      match getRepo env.repoOpt env.gitRepo with
      | .error (m, c) => (.failure m c, [])
      | .ok repo =>
        let commentsEndpoint := commentsEndpointFor repo prId
        let tasksEndpoint := tasksEndpointFor repo prId
        let started := [commentsEndpoint, tasksEndpoint]
        match fetchAllPages env.fetchComments commentsEndpoint env.fuel,
            fetchAllPages env.fetchTasks tasksEndpoint env.fuel with
        | some (.error e), _ =>
          (handleApiError e repo { prId := some prId }, started)
        | _, some (.error e) =>
          (handleApiError e repo { prId := some prId }, started)
        | none, _ => (.hung, started)
        | _, none => (.hung, started)
        | some (.ok allComments), some (.ok allTasks) =>
          let out := commentsOutputOf allComments allTasks
          (.success (formatCommentsText env.fmtTs prId out) out, started)

/-- The structured result of the task-resolve command (`ResolveTaskOutput`
in pr.ts). -/
structure ResolveTaskOutput where
  taskId : Int
  state : String
  deriving DecidableEq, Repr

/-- `formatResolveTaskText` (pr.ts lines 1511-1514). -/
def formatResolveTaskText (data : ResolveTaskOutput) (prId : Int) : String :=
  (if data.state == "RESOLVED" then "Resolved" else "Reopened") ++
    " task #" ++ toString data.taskId ++ " on PR #" ++ toString prId

/-- The external world of the task-resolve orchestrator: resolvers plus the
PUT transport call, given the endpoint and the requested new state. -/
structure ResolveTaskEnv where
  auth : Option (String × String)
  repoOpt : Option String
  gitRepo : Option RepoInfo
  putTask : String → String → Except ApiError Task

/-- The `resolveTask` orchestrator (pr.ts lines 1519-1552): validate PR id,
credentials, repository and task id, PUT the new state, and on a caught error
call `handleApiError` with both the PR id and the task id in context. -/
def resolveTaskCmd (env : ResolveTaskEnv) (prIdArg taskIdArg : String)
    (unresolve : Bool) : CmdExit ResolveTaskOutput :=
  match parsePrId prIdArg with
  | .error (m, c) => .failure m c
  | .ok prId =>
    match env.auth with
    | none => .failure authRequiredMsg 2
    | some _ =>
      match getRepo env.repoOpt env.gitRepo with
      | .error (m, c) => .failure m c
      | .ok repo =>
        match parseIntJs taskIdArg with
        | none => .failure
            ("Invalid task ID: \"" ++ taskIdArg ++ "\". Must be a positive integer.") 4
        | some taskId =>
          if taskId ≤ 0 then
            .failure
              ("Invalid task ID: \"" ++ taskIdArg ++ "\". Must be a positive integer.") 4
          else
            let endpoint := "/repositories/" ++ repo.workspace ++ "/" ++ repo.repo ++
              "/pullrequests/" ++ toString prId ++ "/tasks/" ++ toString taskId
            let newState := if unresolve then "UNRESOLVED" else "RESOLVED"
            match env.putTask endpoint newState with
            | .ok task =>
              .success (formatResolveTaskText { taskId := task.id, state := task.state } prId)
                { taskId := task.id, state := task.state }
            | .error e =>
              handleApiError e repo { prId := some prId, taskId := some taskId }

/-- Repository metadata (`Repository` in types.ts), restricted to the fields
the embedded code reads; `mainbranch` holds `mainbranch?.name` (the unused
`type` field of the nested object is dropped). -/
structure Repository where
  full_name : String
  name : String
  mainbranch : Option String := none
  deriving DecidableEq, Repr

/-- `getDefaultBranch` (pr.ts lines 1261-1269): GET the repository metadata
and return `mainbranch?.name ?? "main"`; any thrown error is swallowed and
falls back to the literal `"main"`.  The metadata call's outcome is the
parameter. -/
def getDefaultBranch (lookup : Except ApiError Repository) : String :=
  match lookup with
  | .ok repoInfo => repoInfo.mainbranch.getD "main"
  | .error _ => "main"

/-- A pull request as returned by the API (`PullRequest` in types.ts),
restricted to the fields the `create` orchestrator reads: `sourceBranch` is
`source.branch.name`, `destBranch` is `destination.branch.name`, `htmlHref`
is `links?.html?.href`. -/
structure PullRequest where
  id : Int
  title : String
  state : String
  sourceBranch : String
  destBranch : String
  htmlHref : Option String := none
  deriving DecidableEq, Repr

/-- The POST body for PR creation (`CreatePullRequestBody` in types.ts),
with the nested `branch.name` wrappers flattened. -/
structure CreatePullRequestBody where
  title : String
  sourceBranch : String
  destinationBranch : Option String := none
  description : Option String := none
  closeSourceBranch : Bool := false
  deriving DecidableEq, Repr

/-- Options of the create command (`CreateOptions` in pr.ts). -/
structure CreateOptions where
  repo : Option String := none
  title : Option String := none
  source : Option String := none
  destination : Option String := none
  description : Option String := none
  close : Bool := false

/-- The structured result of the create command (`CreatePrOutput` in pr.ts). -/
structure CreatePrOutput where
  id : Int
  title : String
  state : String
  source : String
  destination : String
  url : Option String
  deriving DecidableEq, Repr

/-- `formatCreatePrText` (pr.ts lines 1248-1256); the URL line only appears
for a truthy (present and non-empty) URL. -/
def formatCreatePrText (pr : CreatePrOutput) : String :=
  String.intercalate "\n"
    (["Created PR #" ++ toString pr.id ++ ": " ++ pr.title,
      "Branch: " ++ pr.source ++ " -> " ++ pr.destination] ++
      (match pr.url with
       | some u => if u ≠ "" then ["URL: " ++ u] else []
       | none => []))

/-- The source-branch resolution of `create` (pr.ts lines 1280-1289): a truthy
`--source` wins, else the current git branch if truthy. -/
def resolveSourceBranch (sourceOpt : Option String) (currentBranch : Option String) :
    Option String :=
  match sourceOpt with
  | some s => if s ≠ "" then some s else truthyBranch currentBranch
  | none => truthyBranch currentBranch
where
  truthyBranch : Option String → Option String
    | some b => if b ≠ "" then some b else none
    | none => none

/-- The external world of the `create` orchestrator: resolvers, the repository
metadata GET (consumed by `getDefaultBranch`) and the POST transport call. -/
structure CreateEnv where
  auth : Option (String × String)
  gitRepo : Option RepoInfo
  currentBranch : Option String
  repoMeta : Except ApiError Repository
  postPr : CreatePullRequestBody → Except ApiError PullRequest

/-- The `create` orchestrator (pr.ts lines 1274-1347): credentials,
repository, source branch; the destination branch is `--destination` when
given (nullish coalescing, so the repository-metadata lookup is only made
when the option is absent), else `getDefaultBranch`; same-branch pairs are
rejected with exit 4; then the PR is POSTed.  The second component lists the
endpoints handed to the Transport: the metadata GET when it is consulted,
then the POST. -/
def createCmd (env : CreateEnv) (opts : CreateOptions) :
    CmdExit CreatePrOutput × List String :=
  match env.auth with
  | none => (.failure authRequiredMsg 2, [])
  | some _ =>
    match getRepo opts.repo env.gitRepo with
    | .error (m, c) => (.failure m c, [])
    | .ok repo =>
      match resolveSourceBranch opts.source env.currentBranch with
      | none =>
        (.failure "Could not determine source branch. Use --source to specify the branch." 4,
          [])
      | some sourceBranch =>
        let metaEndpoint := "/repositories/" ++ repo.workspace ++ "/" ++ repo.repo
        let metaCalls :=
          match opts.destination with
          | some _ => []
          | none => [metaEndpoint]
        let destBranch :=
          match opts.destination with
          | some d => d
          | none => getDefaultBranch env.repoMeta
        if sourceBranch == destBranch then
          (.failure
            ("Source branch \"" ++ sourceBranch ++
              "\" cannot be the same as destination branch \"" ++ destBranch ++ "\".") 4,
            metaCalls)
        else
          let title := opts.title.getD sourceBranch
          let postEndpoint := "/repositories/" ++ repo.workspace ++ "/" ++ repo.repo ++
            "/pullrequests"
          let body : CreatePullRequestBody :=
            { title := title
              sourceBranch := sourceBranch
              destinationBranch :=
                match opts.destination with
                | some d => if d ≠ "" then some d else none
                | none => none
              description :=
                match opts.description with
                | some d => if d ≠ "" then some d else none
                | none => none
              closeSourceBranch := opts.close }
          match env.postPr body with
          | .ok pr =>
            let out : CreatePrOutput :=
              { id := pr.id, title := pr.title, state := pr.state,
                source := pr.sourceBranch, destination := pr.destBranch,
                url := pr.htmlHref }
            (.success (formatCreatePrText out) out, metaCalls ++ [postEndpoint])
          | .error e => (handleApiError e repo {}, metaCalls ++ [postEndpoint])

/-! ### Properties of the grouping maps and of the tree rendering -/

theorem alGet_alAppend_self {κ α : Type} [BEq κ] [LawfulBEq κ]
    (m : List (κ × List α)) (k : κ) (a : α) :
    alGet (alAppend m k a) k = some (alGetD m k ++ [a]) := by
  induction m with
  | nil => simp [alAppend, alGet, alGetD]
  | cons kv rest ih =>
    obtain ⟨k1, l⟩ := kv
    by_cases h : k1 = k
    · subst h
      simp [alAppend, alGet, alGetD]
    · have hb : (k1 == k) = false := by simp [h]
      simp [alAppend, alGet, alGetD, hb, ih]

theorem alGet_alAppend_ne {κ α : Type} [BEq κ] [LawfulBEq κ]
    (m : List (κ × List α)) (k1 k : κ) (a : α) (h : (k1 == k) = false) :
    alGet (alAppend m k1 a) k = alGet m k := by
  induction m with
  | nil => simp [alAppend, alGet, h]
  | cons kv rest ih =>
    obtain ⟨k2, l⟩ := kv
    by_cases h2 : k2 = k1
    · subst h2
      simp [alAppend, alGet, h]
    · have hb : (k2 == k1) = false := by simp [h2]
      by_cases h3 : k2 = k
      · subst h3
        simp [alAppend, alGet, hb]
      · have hb3 : (k2 == k) = false := by simp [h3]
        simp [alAppend, alGet, hb, hb3, ih]

/-- The children grouping is, for every key, exactly the order-preserving
filter of the grouped list by parent id. -/
theorem alGetD_buildChildrenMap_aux (cs : List FormattedComment)
    (m : List (Option Int × List FormattedComment)) (p : Option Int) :
    alGetD (cs.foldl (fun m c => alAppend m c.parent c) m) p =
      alGetD m p ++ cs.filter (fun c => c.parent == p) := by
  induction cs generalizing m with
  | nil => simp
  | cons c cs ih =>
    rw [List.foldl_cons, ih]
    by_cases h : c.parent = p
    · subst h
      simp [alGetD, alGet_alAppend_self, List.filter_cons]
    · have hb : (c.parent == p) = false := by simp [h]
      simp [alGetD, alGet_alAppend_ne _ _ _ _ hb, List.filter_cons, hb]

theorem alGetD_buildChildrenMap (cs : List FormattedComment) (p : Option Int) :
    alGetD (buildChildrenMap cs) p = cs.filter (fun c => c.parent == p) := by
  simpa [buildChildrenMap, alGetD, alGet] using alGetD_buildChildrenMap_aux cs [] p

/-- Whether a task's comment reference is a truthy reference to comment id
`k`. -/
def taskRefIs (k : Int) (t : Task) : Bool :=
  match t.comment with
  | some cid => cid != 0 && cid == k
  | none => false

/-- The task grouping is, for every comment id, exactly the order-preserving
filter of the task list by truthy reference to that id, formatted. -/
theorem alGetD_buildTasksByCommentId_aux (ts : List Task)
    (m : List (Int × List FormattedTask)) (k : Int) :
    alGetD (ts.foldl (fun m t =>
        match t.comment with
        | some cid => if cid != 0 then alAppend m cid (formatTask t) else m
        | none => m) m) k =
      alGetD m k ++ (ts.filter (taskRefIs k)).map formatTask := by
  induction ts generalizing m with
  | nil => simp
  | cons t ts ih =>
    rw [List.foldl_cons, ih]
    match hc : t.comment with
    | none => simp [taskRefIs, List.filter_cons, hc]
    | some cid =>
      by_cases hz : cid = 0
      · subst hz
        simp [taskRefIs, List.filter_cons, hc]
      · have hnz : (cid != 0) = true := by simp [hz]
        by_cases hk : cid = k
        · subst hk
          simp [taskRefIs, List.filter_cons, hc, hnz, alGetD, alGet_alAppend_self]
        · have hb : (cid == k) = false := by simp [hk]
          simp [taskRefIs, List.filter_cons, hc, hnz, hb, alGetD,
            alGet_alAppend_ne _ _ _ _ hb]

theorem alGetD_buildTasksByCommentId (ts : List Task) (k : Int) :
    alGetD (buildTasksByCommentId ts) k = (ts.filter (taskRefIs k)).map formatTask := by
  simpa [buildTasksByCommentId, alGetD, alGet]
    using alGetD_buildTasksByCommentId_aux ts [] k

/-- The printed tree is the concatenation of each emitted comment's block, in
emission order: the string renderer and its instrumented twin walk the same
traversal. -/
theorem formatCommentTree_eq_emitted (fmtTs : String → String) :
    ∀ (fuel : Nat) (cm : List (Option Int × List FormattedComment))
      (p : Option Int) (indent : String),
    formatCommentTree fmtTs cm p indent fuel =
      (emittedComments cm p indent fuel).flatMap (fun x => blockLines fmtTs x.1 x.2) := by
  intro fuel
  induction fuel with
  | zero => intro cm p indent; simp [formatCommentTree, emittedComments]
  | succ f ih =>
    intro cm p indent
    simp only [formatCommentTree, emittedComments, ih]
    induction alGetD cm p with
    | nil => simp
    | cons c l ihl =>
      simp [List.flatMap_cons, ihl, List.append_assoc]

/-- `ReachableFrom cs p c`: inside the list `cs` there is a parent chain from
group `p` down to the comment `c` — every link of the chain is itself a
member of `cs`.  Emission from the root group `none` therefore certifies that
the whole parent chain of an emitted comment consists of comments of `cs`. -/
inductive ReachableFrom (cs : List FormattedComment) :
    Option Int → FormattedComment → Prop where
  | here {p : Option Int} {c : FormattedComment} :
      c ∈ cs → c.parent = p → ReachableFrom cs p c
  | there {p : Option Int} {d c : FormattedComment} :
      d ∈ cs → d.parent = p → ReachableFrom cs (some d.id) c → ReachableFrom cs p c

/-- Everything the tree traversal emits is reachable through a parent chain
inside the grouped list. -/
theorem emitted_reachable (cs : List FormattedComment) :
    ∀ (fuel : Nat) (p : Option Int) (indent ind : String) (c : FormattedComment),
    (ind, c) ∈ emittedComments (buildChildrenMap cs) p indent fuel →
      ReachableFrom cs p c := by
  intro fuel
  induction fuel with
  | zero => intro p indent ind c h; simp [emittedComments] at h
  | succ f ih =>
    intro p indent ind c h
    simp only [emittedComments, List.mem_flatMap] at h
    obtain ⟨d, hd, hmem⟩ := h
    rw [alGetD_buildChildrenMap, List.mem_filter] at hd
    obtain ⟨hdcs, hdp⟩ := hd
    rcases List.mem_cons.mp hmem with heq | hrec
    · obtain ⟨-, rfl⟩ := Prod.mk.injEq .. ▸ (Prod.ext_iff.mp heq)
      exact .here hdcs (by simpa using hdp)
    · exact .there hdcs (by simpa using hdp) (ih (some d.id) (indent ++ "  ") ind c hrec)

/-! ### Properties of the paginator -/

/-- The page-fetch oracle, started at `url`, reaches a page with no `next`
URL after exactly `k` further hops, every fetch along the way succeeding. -/
inductive Terminates {T : Type} (fetch : String → Except ApiError (Page T)) :
    String → Nat → Prop where
  | last {url : String} {p : Page T} :
      fetch url = .ok p → p.next = none → Terminates fetch url 0
  | step {url nu : String} {p : Page T} {k : Nat} :
      fetch url = .ok p → p.next = some nu → Terminates fetch nu k →
      Terminates fetch url (k + 1)

/-- The pages the cursor chain visits, in order, starting at `url` and taking
`k` further hops. -/
def chainPages {T : Type} (fetch : String → Except ApiError (Page T)) (url : String) :
    Nat → List (Page T)
  | 0 =>
    match fetch url with
    | .ok p => [p]
    | .error _ => []
  | k + 1 =>
    match fetch url with
    | .ok p =>
      p :: (match p.next with
        | some nu => chainPages fetch nu k
        | none => [])
    | .error _ => []

/-- On a terminating cursor chain of `k + 1` pages, the paginator (with any
fuel beyond the chain length) returns exactly the concatenation of the
pages' item lists in page order. -/
theorem fetchAllPages_terminates {T : Type}
    (fetch : String → Except ApiError (Page T)) (url : String) (k : Nat)
    (h : Terminates fetch url k) :
    ∀ fuel : Nat, k < fuel →
      fetchAllPages fetch url fuel =
        some (.ok ((chainPages fetch url k).flatMap (fun p => p.values))) := by
  induction h with
  | last hf hn =>
    intro fuel hfuel
    match fuel, hfuel with
    | f + 1, _ => simp [fetchAllPages, chainPages, hf, hn]
  | step hf hn _ ih =>
    rename_i url nu p k hterm
    intro fuel hfuel
    match fuel, hfuel with
    | f + 1, hfuel =>
      have hk : k < f := by omega
      simp [fetchAllPages, chainPages, hf, hn, ih f hk]

end BB

/-- C1: the Transport's full-URL GET performs no request and fails with a
generic error whenever the supplied URL's hostname differs from
`api.bitbucket.org`, and performs exactly the one requested fetch when the
hostname matches; no URL is silently skipped. -/
theorem spec_C1 {T : Type} (hostnameOf : String → String)
    (doFetch : String → BB.HttpResponse T) (url : String) :
    (hostnameOf url ≠ "api.bitbucket.org" →
      BB.getFullUrl hostnameOf doFetch url =
        (.error (.genericError
          ("Invalid URL: requests must be to api.bitbucket.org, got " ++ hostnameOf url)), [])) ∧
    (hostnameOf url = "api.bitbucket.org" →
      (BB.getFullUrl hostnameOf doFetch url).2 = [url]) := by
  constructor
  · intro h
    simp [BB.getFullUrl, h]
  · intro h
    simp only [BB.getFullUrl, h]
    by_cases hok : BB.responseOk (doFetch url) <;> simp [hok]

/-- Witness for C1: a malicious next-page URL on `evil.example` is rejected
without any fetch, while an `api.bitbucket.org` URL is fetched. -/
theorem spec_C1_witness :
    (BB.getFullUrl (fun _ => "evil.example")
        (fun _ => ({ status := 200, statusText := "OK", errorEnvelope := none, body := () } :
          BB.HttpResponse Unit)) "https://evil.example/p" =
      (.error (.genericError
        ("Invalid URL: requests must be to api.bitbucket.org, got evil.example")), [])) ∧
    (BB.getFullUrl (fun _ => "api.bitbucket.org")
        (fun _ => ({ status := 200, statusText := "OK", errorEnvelope := none, body := () } :
          BB.HttpResponse Unit)) "https://api.bitbucket.org/2.0/x").2 =
      ["https://api.bitbucket.org/2.0/x"] := by
  refine ⟨?_, ?_⟩
  · exact (spec_C1 (fun _ => "evil.example") _ "https://evil.example/p").1 (by decide)
  · exact (spec_C1 (fun _ => "api.bitbucket.org") _ "https://api.bitbucket.org/2.0/x").2 rfl

/-- C4: on every terminating page sequence produced by the page-fetch
function, the paginator returns the concatenation of the pages' item lists in
page order (so the total length is the sum of the page item counts and
relative order is preserved); it stops exactly at the first page without a
next URL; a single page with zero items yields the empty list without error;
and one and the same routine feeds both the comments and the tasks list of
the comments command. -/
theorem spec_C4 {T : Type} :
    (∀ (fetch : String → Except BB.ApiError (BB.Page T)) (url : String) (k fuel : Nat),
      BB.Terminates fetch url k → k < fuel →
        BB.fetchAllPages fetch url fuel =
          some (.ok ((BB.chainPages fetch url k).flatMap (fun p => p.values)))) ∧
    (∀ (pages : List (BB.Page T)),
      (pages.flatMap (fun p => p.values)).length =
        (pages.map (fun p => p.values.length)).sum) ∧
    (∀ (fetch : String → Except BB.ApiError (BB.Page T)) (url : String) (fuel : Nat),
      fetch url = .ok { values := [], next := none } → 0 < fuel →
        BB.fetchAllPages fetch url fuel = some (.ok ([] : List T))) ∧
    (∀ (env : BB.CommentsEnv) (prIdArg : String) (prId : Int) (repo : BB.RepoInfo)
        (a : String × String) (cs : List BB.Comment) (ts : List BB.Task),
      BB.parsePrId prIdArg = .ok prId → env.auth = some a →
      BB.getRepo env.repoOpt env.gitRepo = .ok repo →
      BB.fetchAllPages env.fetchComments (BB.commentsEndpointFor repo prId) env.fuel =
        some (.ok cs) →
      BB.fetchAllPages env.fetchTasks (BB.tasksEndpointFor repo prId) env.fuel =
        some (.ok ts) →
      BB.commentsCmd env prIdArg =
        (.success (BB.formatCommentsText env.fmtTs prId (BB.commentsOutputOf cs ts))
            (BB.commentsOutputOf cs ts),
          [BB.commentsEndpointFor repo prId, BB.tasksEndpointFor repo prId])) := by
  refine ⟨?_, ?_, ?_, ?_⟩
  · intro fetch url k fuel ht hf
    exact BB.fetchAllPages_terminates fetch url k ht fuel hf
  · intro pages
    rw [List.length_flatMap]
    rfl
  · intro fetch url fuel hf hfuel
    have h0 : BB.Terminates fetch url 0 := .last hf rfl
    simpa [BB.chainPages, hf] using
      BB.fetchAllPages_terminates fetch url 0 h0 fuel hfuel
  · intro env prIdArg prId repo a cs ts hp ha hr hc ht
    simp [BB.commentsCmd, hp, ha, hr, hc, ht]

/-- A two-page cursor chain used to instantiate C4. -/
def w4fetch : String → Except BB.ApiError (BB.Page Nat) := fun u =>
  match u with
  | "a" => .ok { values := [1, 2], next := some "b" }
  | _ => .ok { values := [3], next := none }

/-- A concrete environment for the comments command: one comment page, one
empty task page. -/
def w4env : BB.CommentsEnv :=
  { auth := some ("u", "p")
    repoOpt := some "ws/repo"
    gitRepo := none
    fetchComments := fun _ => .ok { values := [w4comment], next := none }
    fetchTasks := fun _ => .ok { values := [], next := none }
    fmtTs := fun s => s
    fuel := 1 }
where
  w4comment : BB.Comment := { id := 1, content := "hi", author := "al", created_on := "t" }

/-- Witness for C4: a two-page chain concatenates to `[1, 2, 3]`; a single
empty page yields `[]`; the comments command consumes the paginator's results
for both of its endpoints. -/
theorem spec_C4_witness :
    (BB.fetchAllPages w4fetch "a" 2 = some (.ok [1, 2, 3])) ∧
    (BB.fetchAllPages (fun _ => .ok { values := [], next := none }) "e" 1 =
      some (.ok ([] : List Nat))) ∧
    (BB.commentsCmd w4env "7" =
      (.success
          (BB.formatCommentsText w4env.fmtTs 7
            (BB.commentsOutputOf [w4env.w4comment] []))
          (BB.commentsOutputOf [w4env.w4comment] []),
        [BB.commentsEndpointFor ⟨"ws", "repo"⟩ 7, BB.tasksEndpointFor ⟨"ws", "repo"⟩ 7])) := by
  refine ⟨?_, ?_, ?_⟩
  · have h := (spec_C4 (T := Nat)).1 w4fetch "a" 1 2
      (.step rfl rfl (.last rfl rfl)) (by omega)
    exact h.trans (by rfl)
  · exact (spec_C4 (T := Nat)).2.2.1 (fun _ => .ok { values := [], next := none }) "e" 1
      rfl (by omega)
  · exact (spec_C4 (T := Nat)).2.2.2 w4env "7" 7 ⟨"ws", "repo"⟩ ("u", "p")
      [w4env.w4comment] [] (by decide) rfl (by decide) rfl rfl

/-- C6: every non-2xx response maps to exactly one of AuthError (401),
ForbiddenError (403), NotFoundError (404) or the generic failure carrying the
status code and the best-effort message (the `error.message` of the JSON
envelope when present, else the protocol status text); the transport's GET
surfaces that error unchanged; the orchestrator turns any 401 into exit code
2, and a 404 on the task-resolve call for task 789 on PR 123 into exit code 3
with a message naming task 789 on PR 123. -/
theorem spec_C6 {T α : Type} :
    (∀ r : BB.HttpResponse T, r.status = 401 →
      BB.handleErrorResponse r = .authError (BB.extractErrMessage r)) ∧
    (∀ r : BB.HttpResponse T, r.status = 403 →
      BB.handleErrorResponse r = .forbiddenError (BB.extractErrMessage r)) ∧
    (∀ r : BB.HttpResponse T, r.status = 404 →
      BB.handleErrorResponse r = .notFoundError (BB.extractErrMessage r)) ∧
    (∀ r : BB.HttpResponse T, r.status ≠ 401 → r.status ≠ 403 → r.status ≠ 404 →
      BB.handleErrorResponse r =
        .genericError ("API error " ++ toString r.status ++ ": " ++ BB.extractErrMessage r)) ∧
    (∀ (r : BB.HttpResponse T) (m : String), r.errorEnvelope = some (some m) →
      BB.extractErrMessage r = m) ∧
    (∀ r : BB.HttpResponse T, r.errorEnvelope = none ∨ r.errorEnvelope = some none →
      BB.extractErrMessage r = r.statusText) ∧
    (∀ (doFetch : String → BB.HttpResponse T) (endpoint : String),
      BB.responseOk (doFetch (BB.baseUrl ++ endpoint)) = false →
      BB.clientGet doFetch endpoint =
        .error (BB.handleErrorResponse (doFetch (BB.baseUrl ++ endpoint)))) ∧
    (∀ (r : BB.HttpResponse T) (repo : BB.RepoInfo) (ctx : BB.ErrorContext),
      r.status = 401 →
      BB.handleApiError (α := α) (BB.handleErrorResponse r) repo ctx =
        .failure "Authentication failed. Check your credentials." 2) ∧
    (∀ (r : BB.HttpResponse T) (env : BB.ResolveTaskEnv) (a : String × String)
        (repo : BB.RepoInfo),
      r.status = 404 → env.auth = some a →
      BB.getRepo env.repoOpt env.gitRepo = .ok repo →
      (∀ endpoint newState,
        env.putTask endpoint newState = .error (BB.handleErrorResponse r)) →
      BB.resolveTaskCmd env "123" "789" false =
        .failure "Task not found: #789 on PR #123" 3) := by
  have h404 : ∀ r : BB.HttpResponse T, r.status = 404 →
      BB.handleErrorResponse r = .notFoundError (BB.extractErrMessage r) := by
    intro r h
    obtain ⟨s, st, envl, b⟩ := r
    simp only at h
    subst h
    rfl
  refine ⟨?_, ?_, h404, ?_, ?_, ?_, ?_, ?_, ?_⟩
  · intro r h
    obtain ⟨s, st, envl, b⟩ := r
    simp only at h
    subst h
    rfl
  · intro r h
    obtain ⟨s, st, envl, b⟩ := r
    simp only at h
    subst h
    rfl
  · intro r h1 h3 h4
    unfold BB.handleErrorResponse
    split
    · exact absurd (by assumption) h1
    · exact absurd (by assumption) h3
    · exact absurd (by assumption) h4
    · rfl
  · intro r m h
    simp [BB.extractErrMessage, h]
  · intro r h
    rcases h with h | h <;> simp [BB.extractErrMessage, h]
  · intro doFetch endpoint h
    simp [BB.clientGet, h]
  · intro r repo ctx h
    obtain ⟨s, st, envl, b⟩ := r
    simp only at h
    subst h
    rfl
  · intro r env a repo h404s hauth hrepo hput
    have hpr : BB.parsePrId "123" = .ok 123 := by decide
    have htsk : BB.parseIntJs "789" = some 789 := by decide
    have hhe : BB.handleErrorResponse r = .notFoundError (BB.extractErrMessage r) :=
      h404 r h404s
    simp [BB.resolveTaskCmd, hpr, hauth, hrepo, htsk, hput, hhe, BB.handleApiError,
      BB.truthyOptInt, BB.optIntText]
    decide

/-- A concrete 404 response for the C6 witness. -/
def w6r404 : BB.HttpResponse Unit :=
  { status := 404, statusText := "Not Found", errorEnvelope := none, body := () }

/-- A concrete task-resolve environment whose PUT always answers the 404. -/
def w6env : BB.ResolveTaskEnv :=
  { auth := some ("u", "p")
    repoOpt := some "ws/repo"
    gitRepo := none
    putTask := fun _ _ => .error (BB.handleErrorResponse w6r404) }

/-- Witness for C6: a 401 maps to AuthError and exits with code 2; the 404 of
a task-resolve on PR 123 / task 789 exits with code 3 naming both ids; a 500
maps to the generic failure carrying the status and the envelope message. -/
theorem spec_C6_witness :
    (BB.handleErrorResponse
        ({ status := 401, statusText := "Unauthorized", errorEnvelope := none, body := () } :
          BB.HttpResponse Unit) = .authError "Unauthorized") ∧
    (BB.handleApiError (α := Unit)
        (BB.handleErrorResponse
          ({ status := 401, statusText := "Unauthorized", errorEnvelope := none, body := () } :
            BB.HttpResponse Unit)) ⟨"ws", "repo"⟩ {} =
      .failure "Authentication failed. Check your credentials." 2) ∧
    (BB.resolveTaskCmd w6env "123" "789" false =
      .failure "Task not found: #789 on PR #123" 3) ∧
    (BB.handleErrorResponse
        ({ status := 500, statusText := "Internal Server Error",
            errorEnvelope := some (some "boom"), body := () } :
          BB.HttpResponse Unit) = .genericError "API error 500: boom") := by
  refine ⟨?_, ?_, ?_, ?_⟩
  · exact ((spec_C6 (T := Unit) (α := Unit)).1 _ rfl).trans rfl
  · exact (spec_C6 (T := Unit) (α := Unit)).2.2.2.2.2.2.2.1 _ ⟨"ws", "repo"⟩ {} rfl
  · exact (spec_C6 (T := Unit) (α := Unit)).2.2.2.2.2.2.2.2 w6r404 w6env ("u", "p")
      ⟨"ws", "repo"⟩ rfl rfl (by decide) (fun _ _ => rfl)
  · exact ((spec_C6 (T := Unit) (α := Unit)).2.2.2.1 _ (by decide) (by decide)
      (by decide)).trans rfl

/-- C7: a PR-id argument that does not parse to a positive integer — `"0"`,
`"-5"` and `"abc"` among them — makes the comments command exit with code 4
before the Transport is handed any endpoint (the started-fetch list stays
empty), for every environment. -/
theorem spec_C7 :
    (∀ (env : BB.CommentsEnv) (arg m : String),
      BB.parsePrId arg = .error (m, 4) →
      BB.commentsCmd env arg = (.failure m 4, [])) ∧
    (∀ (arg : String) (n : Int), BB.parseIntJs arg = some n → n ≤ 0 →
      BB.parsePrId arg = .error (BB.invalidPrIdMsg arg, 4)) ∧
    (∀ arg : String, BB.parseIntJs arg = none →
      BB.parsePrId arg = .error (BB.invalidPrIdMsg arg, 4)) ∧
    (∀ env : BB.CommentsEnv,
      BB.commentsCmd env "0" = (.failure (BB.invalidPrIdMsg "0") 4, []) ∧
      BB.commentsCmd env "-5" = (.failure (BB.invalidPrIdMsg "-5") 4, []) ∧
      BB.commentsCmd env "abc" = (.failure (BB.invalidPrIdMsg "abc") 4, [])) := by
  have hgen : ∀ (env : BB.CommentsEnv) (arg m : String),
      BB.parsePrId arg = .error (m, 4) →
      BB.commentsCmd env arg = (.failure m 4, []) := by
    intro env arg m h
    simp [BB.commentsCmd, h]
  refine ⟨hgen, ?_, ?_, ?_⟩
  · intro arg n hp hn
    simp [BB.parsePrId, hp, hn]
  · intro arg hp
    simp [BB.parsePrId, hp]
  · intro env
    exact ⟨hgen env "0" _ (by decide), hgen env "-5" _ (by decide),
      hgen env "abc" _ (by decide)⟩

/-- Witness for C7: in a concrete environment the three malformed PR ids all
exit with code 4 and an empty started-fetch list. -/
theorem spec_C7_witness :
    BB.commentsCmd w4env "0" = (.failure (BB.invalidPrIdMsg "0") 4, []) ∧
    BB.commentsCmd w4env "-5" = (.failure (BB.invalidPrIdMsg "-5") 4, []) ∧
    BB.commentsCmd w4env "abc" = (.failure (BB.invalidPrIdMsg "abc") 4, []) :=
  ⟨spec_C7.1 w4env "0" (BB.invalidPrIdMsg "0") (by decide),
    spec_C7.1 w4env "-5" (BB.invalidPrIdMsg "-5") (by decide),
    spec_C7.1 w4env "abc" (BB.invalidPrIdMsg "abc") (by decide)⟩

/-- C9: when no destination branch is given, `create` consults the repository
metadata endpoint (the first Transport request it starts is that GET); the
default-branch resolution returns `mainbranch?.name` of the metadata on
success and the literal `"main"` on any lookup failure; and a failing lookup
leaves the whole create operation exactly where a successful lookup of a
repository without a configured main branch would leave it — the lookup
error itself never aborts the command. -/
theorem spec_C9 :
    (∀ e : BB.ApiError, BB.getDefaultBranch (.error e) = "main") ∧
    (∀ r : BB.Repository, BB.getDefaultBranch (.ok r) = r.mainbranch.getD "main") ∧
    (∀ (env : BB.CreateEnv) (opts : BB.CreateOptions) (a : String × String)
        (repo : BB.RepoInfo) (src : String),
      opts.destination = none → env.auth = some a →
      BB.getRepo opts.repo env.gitRepo = .ok repo →
      BB.resolveSourceBranch opts.source env.currentBranch = some src →
      (BB.createCmd env opts).2.head? =
        some ("/repositories/" ++ repo.workspace ++ "/" ++ repo.repo)) ∧
    (∀ (env : BB.CreateEnv) (opts : BB.CreateOptions) (e : BB.ApiError),
      opts.destination = none →
      BB.createCmd { env with repoMeta := .error e } opts =
        BB.createCmd
          { env with repoMeta := .ok { full_name := "", name := "", mainbranch := none } }
          opts) := by
  refine ⟨fun e => rfl, fun r => rfl, ?_, ?_⟩
  · intro env opts a repo src hdest hauth hrepo hsrc
    simp only [BB.createCmd, hauth, hrepo, hsrc, hdest]
    by_cases hsame : (src == BB.getDefaultBranch env.repoMeta) = true
    · simp [hsame]
    · simp only [Bool.not_eq_true] at hsame
      simp only [hsame]
      cases env.postPr _ <;> simp
  · intro env opts e hdest
    obtain ⟨auth, gitRepo, currentBranch, repoMeta, postPr⟩ := env
    simp only [BB.createCmd, hdest]
    cases auth with
    | none => rfl
    | some a =>
      cases hre : BB.getRepo opts.repo gitRepo with
      | error mc => rfl
      | ok repo =>
        cases hsb : BB.resolveSourceBranch opts.source currentBranch with
        | none => rfl
        | some src => rfl

/-- A concrete create environment whose metadata lookup fails, for the C9
witness. -/
def w9env : BB.CreateEnv :=
  { auth := some ("u", "p")
    gitRepo := some ⟨"ws", "repo"⟩
    currentBranch := some "feat"
    repoMeta := .error (.genericError "boom")
    postPr := fun b =>
      .ok { id := 9, title := b.title, state := "OPEN", sourceBranch := b.sourceBranch,
            destBranch := "main", htmlHref := none } }

/-- Witness for C9: with a failing metadata lookup and no `--destination`,
create still starts with the metadata GET, falls back to destination
`"main"`, and behaves exactly as under a successful lookup without a
configured main branch. -/
theorem spec_C9_witness :
    (BB.getDefaultBranch (.error (.genericError "boom")) = "main") ∧
    ((BB.createCmd w9env {}).2.head? = some "/repositories/ws/repo") ∧
    (BB.createCmd { w9env with repoMeta := .error (.genericError "boom") } {} =
      BB.createCmd
        { w9env with repoMeta := .ok { full_name := "", name := "", mainbranch := none } }
        {}) := by
  refine ⟨spec_C9.1 _, ?_, spec_C9.2.2.2 w9env {} (.genericError "boom") rfl⟩
  exact spec_C9.2.2.1 w9env {} ("u", "p") ⟨"ws", "repo"⟩ "feat" rfl rfl (by decide) rfl

/-- The five active comments (two resolved) of the C5 example, plus one
deleted comment. -/
def w5comments : List BB.Comment :=
  [{ id := 1, content := "a", author := "u1", created_on := "t1",
      resolution := some "comment" },
    { id := 2, content := "b", author := "u2", created_on := "t2" },
    { id := 3, content := "c", author := "u3", created_on := "t3",
      resolution := some "comment" },
    { id := 4, content := "d", author := "u4", created_on := "t4" },
    { id := 5, content := "e", author := "u5", created_on := "t5" }]

/-- The deleted sixth comment of the C5 example. -/
def w5deleted : BB.Comment :=
  { id := 6, content := "f", author := "u6", created_on := "t6", deleted := true }

/-- C5: the comments operation reports `total` = number of non-deleted
comments, `resolved` = number of those carrying a resolution marker,
`unresolved` = total − resolved; inserting a deleted comment anywhere in the
input changes neither the structured output (hence none of the three counts)
nor the rendered text; and the 5-comment example with 2 resolution markers
yields 5/2/3. -/
theorem spec_C5 :
    (∀ (cs : List BB.Comment) (ts : List BB.Task),
      (BB.commentsOutputOf cs ts).total = (cs.filter (fun c => !c.deleted)).length ∧
      (BB.commentsOutputOf cs ts).resolved =
        ((cs.filter (fun c => !c.deleted)).filter (fun c => c.resolution.isSome)).length ∧
      (BB.commentsOutputOf cs ts).unresolved =
        (BB.commentsOutputOf cs ts).total - (BB.commentsOutputOf cs ts).resolved) ∧
    (∀ (cs1 cs2 : List BB.Comment) (ts : List BB.Task) (c : BB.Comment),
      c.deleted = true →
      BB.commentsOutputOf (cs1 ++ c :: cs2) ts = BB.commentsOutputOf (cs1 ++ cs2) ts) ∧
    (∀ (fmtTs : String → String) (prId : Int) (cs1 cs2 : List BB.Comment)
        (ts : List BB.Task) (c : BB.Comment),
      c.deleted = true →
      BB.formatCommentsText fmtTs prId (BB.commentsOutputOf (cs1 ++ c :: cs2) ts) =
        BB.formatCommentsText fmtTs prId (BB.commentsOutputOf (cs1 ++ cs2) ts)) ∧
    ((BB.commentsOutputOf w5comments []).total = 5 ∧
      (BB.commentsOutputOf w5comments []).resolved = 2 ∧
      (BB.commentsOutputOf w5comments []).unresolved = 3 ∧
      BB.commentsOutputOf (w5comments ++ [w5deleted]) [] =
        BB.commentsOutputOf w5comments []) := by
  have hins : ∀ (cs1 cs2 : List BB.Comment) (ts : List BB.Task) (c : BB.Comment),
      c.deleted = true →
      BB.commentsOutputOf (cs1 ++ c :: cs2) ts = BB.commentsOutputOf (cs1 ++ cs2) ts := by
    intro cs1 cs2 ts c h
    simp [BB.commentsOutputOf, List.filter_append, List.filter_cons, h]
  refine ⟨?_, hins, ?_, ?_⟩
  · intro cs ts
    exact ⟨rfl, rfl, rfl⟩
  · intro fmtTs prId cs1 cs2 ts c h
    rw [hins cs1 cs2 ts c h]
  · refine ⟨by decide, by decide, by decide, ?_⟩
    have := hins w5comments [] [] w5deleted rfl
    simpa using this

/-- Witness for C5: inserting the deleted sixth comment in the middle of the
five-comment example leaves the structured output and the rendered text
unchanged, and the counts are 5/2/3. -/
theorem spec_C5_witness :
    BB.commentsOutputOf (w5comments ++ w5deleted :: []) [] =
      BB.commentsOutputOf (w5comments ++ []) [] ∧
    BB.formatCommentsText (fun s => s) 1
        (BB.commentsOutputOf (w5comments ++ w5deleted :: []) []) =
      BB.formatCommentsText (fun s => s) 1 (BB.commentsOutputOf (w5comments ++ []) []) ∧
    (BB.commentsOutputOf w5comments []).total = 5 :=
  ⟨spec_C5.2.1 w5comments [] [] w5deleted rfl,
    spec_C5.2.2.1 (fun s => s) 1 w5comments [] [] w5deleted rfl,
    spec_C5.2.2.2.1⟩

/-- The four comments of the C3 example: 1 a root, 2 and 3 replies to 1, 4 a
reply to 2. -/
def w3comments : List BB.Comment :=
  [{ id := 1, content := "c1", author := "a1", created_on := "t1" },
    { id := 2, content := "c2", author := "a2", created_on := "t2", parent := some 1 },
    { id := 3, content := "c3", author := "a3", created_on := "t3", parent := some 1 },
    { id := 4, content := "c4", author := "a4", created_on := "t4", parent := some 2 }]

/-- The comments-command output for the C3 example. -/
def w3out : BB.CommentsOutput := BB.commentsOutputOf w3comments []

/-- The depth-`i` link of a reply chain: comment `i`, a reply to comment
`i - 1` (comment 1 is the root). -/
def mkChainC (i : Nat) : BB.FormattedComment :=
  { id := (i : Int)
    parent := if i ≤ 1 then none else some ((i : Int) - 1)
    author := "a", content := "c", created := "t", resolved := false,
    file := none, line := none, tasks := [] }

/-- The reply chain `mkChainC s, mkChainC (s+1), …` of length `k`. -/
def chainFrom (s : Nat) : Nat → List BB.FormattedComment
  | 0 => []
  | k + 1 => mkChainC s :: chainFrom (s + 1) k

theorem chainFrom_length : ∀ (k s : Nat), (chainFrom s k).length = k := by
  intro k
  induction k with
  | zero => intro s; rfl
  | succ k ih => intro s; simp [chainFrom, ih]

theorem chain_filter_none : ∀ (k s : Nat), 2 ≤ s →
    (chainFrom s k).filter (fun c => c.parent == (none : Option Int)) = [] := by
  intro k
  induction k with
  | zero => intro s _; rfl
  | succ k ih =>
    intro s hs
    have h1 : ¬ s ≤ 1 := by omega
    simp [chainFrom, List.filter_cons, mkChainC, h1, ih (s + 1) (by omega)]

theorem chain_filter_far : ∀ (k s j : Nat), j + 1 < s →
    (chainFrom s k).filter (fun c => c.parent == some ((j : Nat) : Int)) = [] := by
  intro k
  induction k with
  | zero => intro s j _; rfl
  | succ k ih =>
    intro s j hj
    have h1 : ¬ s ≤ 1 := by omega
    have hne : ((s : Int) - 1) ≠ ((j : Nat) : Int) := by omega
    simp [chainFrom, List.filter_cons, mkChainC, h1, hne, ih (s + 1) j (by omega)]

theorem chain_filter_some : ∀ (k s j : Nat), 1 ≤ j → s ≤ j + 1 →
    (chainFrom s k).filter (fun c => c.parent == some ((j : Nat) : Int)) =
      if j + 1 < s + k then [mkChainC (j + 1)] else [] := by
  intro k
  induction k with
  | zero =>
    intro s j hj hs
    rw [if_neg (by omega)]
    rfl
  | succ k ih =>
    intro s j hj hs
    by_cases hseq : s = j + 1
    · have h1 : ¬ s ≤ 1 := by omega
      have heq : ((s : Int) - 1) = ((j : Nat) : Int) := by omega
      rw [if_pos (by omega)]
      have hfar := chain_filter_far k (s + 1) j (by omega)
      simp [chainFrom, List.filter_cons, mkChainC, h1, heq, hfar]
      simp [hseq]
      omega
    · have hsle : s ≤ j := by omega
      rw [if_congr (by omega : (j + 1 < s + (k + 1)) ↔ (j + 1 < (s + 1) + k)) rfl rfl]
      by_cases h1 : s ≤ 1
      · simp [chainFrom, List.filter_cons, mkChainC, h1, ih (s + 1) j hj (by omega)]
      · have hne : ((s : Int) - 1) ≠ ((j : Nat) : Int) := by omega
        simp [chainFrom, List.filter_cons, mkChainC, h1, hne, ih (s + 1) j hj (by omega)]

theorem chain_filter_root (n : Nat) :
    (chainFrom 1 n).filter (fun c => c.parent == (none : Option Int)) =
      if n = 0 then [] else [mkChainC 1] := by
  cases n with
  | zero => rfl
  | succ m =>
    rw [if_neg (by omega)]
    simp [chainFrom, List.filter_cons, mkChainC, chain_filter_none m 2 (by omega)]

theorem emitted_chain_aux (n : Nat) : ∀ (f j : Nat) (ind : String), 1 ≤ j → n - j ≤ f →
    (BB.emittedComments (BB.buildChildrenMap (chainFrom 1 n)) (some ((j : Nat) : Int))
        ind f).map (fun x => x.2) = chainFrom (j + 1) (n - j) := by
  intro f
  induction f with
  | zero =>
    intro j ind hj hf
    have h0 : n - j = 0 := by omega
    rw [h0]
    rfl
  | succ f ih =>
    intro j ind hj hf
    rw [BB.emittedComments, BB.alGetD_buildChildrenMap,
      chain_filter_some n 1 j hj (by omega)]
    by_cases hlt : j + 1 < 1 + n
    · rw [if_pos hlt]
      have hid : (mkChainC (j + 1)).id = (((j + 1 : Nat)) : Int) := by
        simp [mkChainC]
      simp only [List.flatMap_cons, List.flatMap_nil, List.append_nil, List.map_cons, hid]
      rw [ih (j + 1) (ind ++ "  ") (by omega) (by omega)]
      obtain ⟨d, hd⟩ : ∃ d, n - j = d + 1 := ⟨n - j - 1, by omega⟩
      rw [hd]
      have hd2 : n - (j + 1) = d := by omega
      rw [hd2]
      rfl
    · rw [if_neg hlt]
      have h0 : n - j = 0 := by omega
      rw [h0]
      rfl

/-- A reply chain of any length `n` is emitted in full by the tree traversal
at the fuel the renderer uses, demonstrating that nesting depth is unbounded:
the rendering never caps the recursion. -/
theorem emitted_chain (n : Nat) :
    (BB.emittedComments (BB.buildChildrenMap (chainFrom 1 n)) none ""
        ((chainFrom 1 n).length + 1)).map (fun x => x.2) = chainFrom 1 n := by
  rw [chainFrom_length]
  cases n with
  | zero => rfl
  | succ m =>
    rw [BB.emittedComments, BB.alGetD_buildChildrenMap, chain_filter_root]
    rw [if_neg (by omega)]
    have hid : (mkChainC 1).id = ((1 : Nat) : Int) := by simp [mkChainC]
    simp only [List.flatMap_cons, List.flatMap_nil, List.append_nil, List.map_cons, hid]
    rw [emitted_chain_aux (m + 1) (m + 1) 1 ("" ++ "  ") (by omega) (by omega)]
    simp [chainFrom]

/-- C3: the text rendering is depth-first — the printed lines are exactly the
blocks of the instrumented traversal in emission order; the children of any
group are the output comments whose parent id equals it, in original fetch
order; each emission step lists a child's whole subtree (at a two-space
deeper indent) before the next sibling; on the example
`[1 root, 2 ↦ 1, 3 ↦ 1, 4 ↦ 2]` the emission order is 1, 2, 4, 3 with
indentation growing by depth, the full rendered text being the explicit
transcript below; and a reply chain of any length renders completely (no
maximum depth). -/
theorem spec_C3 :
    (∀ (fmtTs : String → String) (fuel : Nat)
        (cm : List (Option Int × List BB.FormattedComment)) (p : Option Int)
        (ind : String),
      BB.formatCommentTree fmtTs cm p ind fuel =
        (BB.emittedComments cm p ind fuel).flatMap
          (fun x => BB.blockLines fmtTs x.1 x.2)) ∧
    (∀ (cs : List BB.FormattedComment) (p : Option Int),
      BB.alGetD (BB.buildChildrenMap cs) p = cs.filter (fun c => c.parent == p)) ∧
    (∀ (cm : List (Option Int × List BB.FormattedComment)) (p : Option Int)
        (ind : String) (f : Nat),
      BB.emittedComments cm p ind (f + 1) =
        (BB.alGetD cm p).flatMap
          (fun c => (ind, c) :: BB.emittedComments cm (some c.id) (ind ++ "  ") f)) ∧
    ((BB.emittedComments (BB.buildChildrenMap w3out.comments) none ""
        (w3out.comments.length + 1)).map (fun x => (x.2.id, x.1)) =
      [(1, ""), (2, "  "), (4, "    "), (3, "  ")]) ∧
    (BB.formatCommentsText (fun s => s) 1 w3out =
      "Comments on PR #1 (4 total, 0 resolved, 4 unresolved)\n\n[#1] a1 (t1)\n  c1\n\n  [#2] a2 (t2)\n    c2\n\n    [#4] a4 (t4)\n      c4\n\n  [#3] a3 (t3)\n    c3") ∧
    (∀ n : Nat,
      (BB.emittedComments (BB.buildChildrenMap (chainFrom 1 n)) none ""
          ((chainFrom 1 n).length + 1)).map (fun x => x.2) = chainFrom 1 n) := by
  refine ⟨?_, BB.alGetD_buildChildrenMap, fun cm p ind f => rfl, by decide, by decide,
    emitted_chain⟩
  intro fmtTs fuel cm p ind
  exact BB.formatCommentTree_eq_emitted fmtTs fuel cm p ind

/-- A deleted root comment. -/
def w2deleted : BB.Comment :=
  { id := 1, content := "gone", author := "a1", created_on := "t1", deleted := true }

/-- A live reply whose declared parent is the deleted comment 1. -/
def w2child : BB.Comment :=
  { id := 2, content := "still here", author := "a2", created_on := "t2", parent := some 1 }

/-- The comments-command output for the deleted-parent example. -/
def w2out : BB.CommentsOutput := BB.commentsOutputOf [w2deleted, w2child] []

/-- Counterexample to C2: on the fetched set `[1 (deleted), 2 ↦ 1]` the
non-deleted descendant 2 of the deleted comment 1 does NOT appear in the
rendered transcript — the tree traversal emits nothing and the text is the
bare summary header — even though 2 is active and present in the structured
output.  So deleted comments are not kept for the grouping: filtering
happens before tree construction, not after. -/
theorem spec_C2_counterexample :
    w2out.comments = [BB.formatComment w2child []] ∧
    BB.emittedComments (BB.buildChildrenMap w2out.comments) none ""
        (w2out.comments.length + 1) = [] ∧
    BB.formatCommentsText (fun s => s) 1 w2out =
      "Comments on PR #1 (1 total, 0 resolved, 1 unresolved)" := by
  refine ⟨by decide, by decide, by decide⟩

/-- C2 as amended: comments flagged deleted are removed from the fetched list
*before* the parent→children grouping is computed — the grouping the renderer
uses is computed over the non-deleted output comments only — so descendants
of a deleted comment do not appear in the rendered transcript (while they
remain, flat, in the structured result); on the deleted-parent example the
traversal emits nothing although the descendant is in the structured
output. -/
theorem spec_C2 :
    (∀ (cs : List BB.Comment) (ts : List BB.Task),
      BB.commentsOutputOf cs ts =
        BB.commentsOutputOf (cs.filter (fun c => !c.deleted)) ts) ∧
    (∀ (cs : List BB.Comment) (ts : List BB.Task) (p : Option Int),
      BB.alGetD (BB.buildChildrenMap (BB.commentsOutputOf cs ts).comments) p =
        (BB.commentsOutputOf cs ts).comments.filter (fun c => c.parent == p)) ∧
    (BB.formatComment w2child [] ∈ w2out.comments ∧
      BB.emittedComments (BB.buildChildrenMap w2out.comments) none ""
        (w2out.comments.length + 1) = []) := by
  refine ⟨?_, ?_, by decide, by decide⟩
  · intro cs ts
    simp [BB.commentsOutputOf, List.filter_filter]
  · intro cs ts p
    exact BB.alGetD_buildChildrenMap _ p

/-- C10: the structured output of the comments operation carries every
non-deleted fetched comment as a flat record; the text rendering only ever
emits a comment whose entire parent chain (`ReachableFrom … none`) consists
of non-deleted fetched comments of the output set; and on the deleted-parent
example the two disagree — the structured output contains the orphaned
comment 2 while the rendering emits nothing. -/
theorem spec_C10 :
    (∀ (cs : List BB.Comment) (ts : List BB.Task) (c : BB.Comment),
      c ∈ cs → c.deleted = false →
      BB.formatComment c (BB.alGetD (BB.buildTasksByCommentId ts) c.id) ∈
        (BB.commentsOutputOf cs ts).comments) ∧
    (∀ (cs : List BB.Comment) (ts : List BB.Task) (f : Nat) (ind : String)
        (x : String × BB.FormattedComment),
      x ∈ BB.emittedComments
          (BB.buildChildrenMap (BB.commentsOutputOf cs ts).comments) none ind f →
      BB.ReachableFrom (BB.commentsOutputOf cs ts).comments none x.2) ∧
    (BB.formatComment w2child [] ∈ w2out.comments ∧
      BB.emittedComments (BB.buildChildrenMap w2out.comments) none ""
        (w2out.comments.length + 1) = []) := by
  refine ⟨?_, ?_, by decide, by decide⟩
  · intro cs ts c hmem hdel
    simp only [BB.commentsOutputOf, List.mem_map]
    exact ⟨c, List.mem_filter.mpr ⟨hmem, by simp [hdel]⟩, rfl⟩
  · intro cs ts f ind x hx
    obtain ⟨i, c⟩ := x
    exact BB.emitted_reachable _ f none ind i c hx

/-- Witness for C10: on the deleted-parent example, comment 2 is a member of
the structured output, and the (empty) emission is vacuously chain-closed. -/
theorem spec_C10_witness :
    BB.formatComment w2child
        (BB.alGetD (BB.buildTasksByCommentId []) w2child.id) ∈
      (BB.commentsOutputOf [w2deleted, w2child] []).comments :=
  spec_C10.1 [w2deleted, w2child] [] w2child (by decide) rfl

/-- A rendered comment with id 0. -/
def w8comment0 : BB.Comment := { id := 0, content := "z", author := "a0", created_on := "t0" }

/-- A task referencing comment id 0. -/
def w8task0 : BB.Task :=
  { id := 5, state := "UNRESOLVED", content := "do it", creator := "u", comment := some 0 }

/-- Counterexample to C8: a task whose comment reference is id 0 is NOT
rendered inside comment 0's block even though comment 0 is in the rendered
set — the grouping guard `if (task.comment?.id)` is JS-truthy and drops a
reference to id 0 — so the universally quantified claim fails at C = 0: the
comment renders bare and the task appears nowhere. -/
theorem spec_C8_counterexample :
    (BB.commentsOutputOf [w8comment0] [w8task0]).comments =
      [BB.formatComment w8comment0 []] ∧
    BB.formatCommentsText (fun s => s) 1 (BB.commentsOutputOf [w8comment0] [w8task0]) =
      "Comments on PR #1 (1 total, 0 resolved, 1 unresolved)\n\n[#0] a0 (t0)\n  z" := by
  refine ⟨by decide, by decide⟩

/-- The comment of the C8 positive example. -/
def w8comment2 : BB.Comment := { id := 2, content := "look", author := "a2", created_on := "t2" }

/-- Two tasks referencing comment 2 (one open, one resolved) and one
standalone task with no reference. -/
def w8tasks : List BB.Task :=
  [{ id := 5, state := "UNRESOLVED", content := "open one", creator := "u", comment := some 2 },
    { id := 6, state := "RESOLVED", content := "closed one", creator := "u", comment := some 2 },
    { id := 7, state := "UNRESOLVED", content := "standalone", creator := "u", comment := none }]

/-- C8 as amended: for every task whose comment reference is a *nonzero* id
C, if comment C is in the rendered set the task is rendered inside comment
C's block — the attached tasks of an output comment are exactly the tasks
truthily referencing its id, in order, and each contributes a line of its
comment's block with marker `[x]` iff its state is RESOLVED (`[ ]`
otherwise, UNRESOLVED in particular), those block lines appearing in the
rendered tree whenever the comment is emitted; tasks with no (or a zero)
comment reference belong to no comment's task list and appear nowhere in the
output.  The concrete transcript shows tasks 5 (`[ ]`) and 6 (`[x]`) inside
comment 2's block and standalone task 7 nowhere. -/
theorem spec_C8 :
    (∀ (ts : List BB.Task) (k : Int),
      BB.alGetD (BB.buildTasksByCommentId ts) k =
        (ts.filter (BB.taskRefIs k)).map BB.formatTask) ∧
    (∀ (t : BB.Task) (k : Int), t.comment = none ∨ t.comment = some 0 →
      BB.taskRefIs k t = false) ∧
    (∀ (cs : List BB.Comment) (ts : List BB.Task) (c : BB.FormattedComment),
      c ∈ (BB.commentsOutputOf cs ts).comments →
      c.tasks = BB.alGetD (BB.buildTasksByCommentId ts) c.id) ∧
    (∀ (fmtTs : String → String) (ind : String) (c : BB.FormattedComment)
        (t : BB.FormattedTask), t ∈ c.tasks →
      (ind ++ "  " ++ (if t.state == "RESOLVED" then "[x]" else "[ ]") ++
          " Task #" ++ toString t.id ++ ": " ++ t.content) ∈
        BB.blockLines fmtTs ind c) ∧
    (∀ (fmtTs : String → String) (f : Nat)
        (cm : List (Option Int × List BB.FormattedComment)) (p : Option Int)
        (ind : String) (x : String × BB.FormattedComment) (l : String),
      x ∈ BB.emittedComments cm p ind f → l ∈ BB.blockLines fmtTs x.1 x.2 →
      l ∈ BB.formatCommentTree fmtTs cm p ind f) ∧
    (BB.formatCommentsText (fun s => s) 1 (BB.commentsOutputOf [w8comment2] w8tasks) =
      "Comments on PR #1 (1 total, 0 resolved, 1 unresolved)\nTasks: 1/2 resolved\n\n[#2] a2 (t2)\n  look\n  [ ] Task #5: open one\n  [x] Task #6: closed one") := by
  refine ⟨BB.alGetD_buildTasksByCommentId, ?_, ?_, ?_, ?_, by decide⟩
  · intro t k h
    rcases h with h | h <;> simp [BB.taskRefIs, h]
  · intro cs ts c hc
    simp only [BB.commentsOutputOf, List.mem_map] at hc
    obtain ⟨a, ha, rfl⟩ := hc
    rfl
  · intro fmtTs ind c t ht
    have h1 : (ind ++ "  " ++ (if t.state == "RESOLVED" then "[x]" else "[ ]") ++
          " Task #" ++ toString t.id ++ ": " ++ t.content) ∈
        c.tasks.map (fun tt => ind ++ "  " ++
          (if tt.state == "RESOLVED" then "[x]" else "[ ]") ++
          " Task #" ++ toString tt.id ++ ": " ++ tt.content) :=
      List.mem_map_of_mem _ ht
    exact List.mem_append_left _ (List.mem_append_right _ h1)
  · intro fmtTs f cm p ind x l hx hl
    rw [BB.formatCommentTree_eq_emitted, List.mem_flatMap]
    exact ⟨x, hx, hl⟩

/-- The standalone task of the C8 example. -/
def w8standalone : BB.Task :=
  { id := 7, state := "UNRESOLVED", content := "standalone", creator := "u", comment := none }

/-- The formatted open task 5 of the C8 example. -/
def w8ft5 : BB.FormattedTask :=
  { id := 5, state := "UNRESOLVED", content := "open one", creator := "u" }

/-- Witness for C8: the attached-task and block-line membership facts,
instantiated on the concrete example — task 5's open-marker line is a line
of comment 2's block, and that block is part of the rendered tree. -/
theorem spec_C8_witness :
    BB.taskRefIs 2 w8standalone = false ∧
    ("" ++ "  " ++ "[ ]" ++ " Task #" ++ toString (5 : Int) ++ ": " ++ "open one") ∈
      BB.blockLines (fun s => s) ""
        (BB.formatComment w8comment2
          (BB.alGetD (BB.buildTasksByCommentId w8tasks) 2)) := by
  constructor
  · exact spec_C8.2.1 w8standalone 2 (Or.inl rfl)
  · have h := spec_C8.2.2.2.1 (fun s => s) ""
      (BB.formatComment w8comment2 (BB.alGetD (BB.buildTasksByCommentId w8tasks) 2))
      w8ft5 (by decide)
    simpa using h
